import Mathlib

/-!
Shallow embedding of `src/index.js` — the invite-attribution and
reward-reconciliation engine of the InviteReward Discord bot — together with
proofs of the behavioural properties stated in the specification.

The SQLite table `invite_rewards` is modelled as a list of rows in insertion
order; a JavaScript `Map` is modelled as an insertion-ordered association
list; JavaScript numbers are modelled as rationals; nullable strings are
`Option String` with explicit JS truthiness (`null` and `""` are falsy).
The Discord and Coin-API collaborators are modelled as explicit inputs: the
fetched invite list, and per-record answers about guild/member reachability
and the HTTP outcome of the payment POST.
-/

namespace InviteReward

/-- JavaScript truthiness of a nullable string: `null` and `""` are falsy. -/
def truthyStr : Option String → Bool
  | none => false
  | some s => s ≠ ""

/-- JavaScript `a || b || null` on nullable strings: the first truthy operand,
else `null`. -/
def jsOrStr (a b : Option String) : Option String :=
  if truthyStr a then a else if truthyStr b then b else none

/-- JavaScript `s || null`. -/
def strOrNull (s : Option String) : Option String :=
  if truthyStr s then s else none

/-- JavaScript `x || '(unknown)'` (used for `used.inviterId || '(unknown)'`). -/
def orUnknown : Option String → String
  | none => "(unknown)"
  | some s => if s = "" then "(unknown)" else s

/-- One row of the `invite_rewards` table created by `initDb`:
`(guild_id, invite_code, inviter_id, joined_id UNIQUE, joined_at, paid,
paid_at, payment_tx)`. -/
structure JoinRecord where
  guild_id : String
  invite_code : Option String
  inviter_id : String
  joined_id : String
  joined_at : Nat
  paid : Bool
  paid_at : Option Nat
  payment_tx : Option String
deriving Repr, DecidableEq

/-- The `invite_rewards` table, rows in insertion order. -/
abbrev Ledger := List JoinRecord

/-- `addPendingInviteRecord`: `INSERT OR IGNORE INTO invite_rewards (...)
VALUES (?, ?, ?, ?, ?, 0)` with `invite_code = inviteCode || null`.  The
`UNIQUE` constraint on `joined_id` makes the insert a no-op when a row for
that member already exists. -/
def addPendingInviteRecord (db : Ledger) (guildId : String)
    (inviteCode : Option String) (inviterId joinedId : String) (now : Nat) :
    Ledger :=
  if db.any (fun r => r.joined_id == joinedId) then db
  else
    db ++ [{ guild_id := guildId, invite_code := strOrNull inviteCode,
             inviter_id := inviterId, joined_id := joinedId, joined_at := now,
             paid := false, paid_at := none, payment_tx := none }]

/-- `markPaid`: `UPDATE invite_rewards SET paid = 1, paid_at = ?,
payment_tx = ? WHERE joined_id = ?` with `payment_tx = txId || null`. -/
def markPaid (db : Ledger) (joinedId : String) (txId : Option String)
    (now : Nat) : Ledger :=
  db.map (fun r =>
    if r.joined_id == joinedId then
      { r with paid := true, paid_at := some now, payment_tx := strOrNull txId }
    else r)

/-- `removeInviteRecord`: `DELETE FROM invite_rewards WHERE joined_id = ?`. -/
def removeInviteRecord (db : Ledger) (joinedId : String) : Ledger :=
  db.filter (fun r => r.joined_id != joinedId)

/-- `getUnpaidInvites`: `SELECT * FROM invite_rewards WHERE paid = 0 LIMIT ?`. -/
def getUnpaidInvites (db : Ledger) (limit : Nat) : List JoinRecord :=
  (db.filter (fun r => r.paid == false)).take limit

/-- The fields of a 2xx JSON response body from the Coin API, as far as
`payViaCard` and `periodicCheck` inspect it: an optional `success` flag and
optional `txId` / `tx_id` strings. -/
structure PayData where
  success : Option Bool
  txId : Option String
  tx_id : Option String
deriving Repr, DecidableEq

/-- Outcome of the `axios.post` in `payViaCard`: either a 2xx response with
its (possibly absent) body, or a thrown error (network failure or non-2xx
HTTP status). -/
inductive HttpOutcome where
  | ok (data : Option PayData)
  | thrown (msg : String)
deriving Repr, DecidableEq

/-- The object returned by `payViaCard` on its non-throwing paths. -/
structure PayResult where
  success : Bool
  txId : Option String
  data : Option PayData
deriving Repr, DecidableEq

/-- `payViaCard`: a thrown axios error is re-thrown as `Payment failed: ...`;
every 2xx response is returned with `success: true` — with the extracted
`txId` when the body carries `success === true`, with the raw body as `data`
when the flag is absent or not `true`, and bare when there is no body. -/
def payViaCard (resp : HttpOutcome) : Except String PayResult :=
  match resp with
  | .thrown msg => .error ("Payment failed: " ++ msg)
  | .ok none => .ok { success := true, txId := none, data := none }
  | .ok (some d) =>
      if d.success == some true then
        .ok { success := true, txId := jsOrStr d.txId d.tx_id, data := none }
      else
        .ok { success := true, txId := none, data := some d }

/-- The txId extraction at the `markPaid` call site in `periodicCheck`:
`payRes.txId` if truthy, else `payRes.data.txId || payRes.data.tx_id` if
truthy, else `null`. -/
def extractTxId (payRes : PayResult) : Option String :=
  if truthyStr payRes.txId then payRes.txId
  else
    match payRes.data with
    | some d =>
        if truthyStr (jsOrStr d.txId d.tx_id) then jsOrStr d.txId d.tx_id
        else none
    | none => none

/-- The `payment_tx` value that `periodicCheck` ends up passing to `markPaid`
for a 2xx payment response with body `d`: the composite of `payViaCard` and
`extractTxId` on the non-throwing path (the agreement is proved below in
`payViaCard_ok_extract`). -/
def payOkTx : Option PayData → Option String
  | none => none
  | some pd => jsOrStr pd.txId pd.tx_id

/-- Configuration read from `.env`: `RECEIVER_CARD`, `Number(WORTH)` and
`CHECK_INTERVAL_MS`. -/
structure Config where
  receiverCard : String
  worth : Rat
  checkIntervalMs : Nat
deriving Repr, DecidableEq

/-- Behaviour of the collaborators during one reconciliation pass, keyed by
the record being processed: whether `client.guilds.fetch(row.guild_id)`
succeeds, whether `guild.members.fetch(row.joined_id)` succeeds, and the
HTTP outcome of the payment POST for that record. -/
structure Env where
  guildAccessible : String → Bool
  memberPresent : String → String → Bool
  payResponse : String → HttpOutcome

/-- One call to the payment collaborator: the POST body fields
(`payViaCard(RECEIVER_CARD, row.inviter_id, WORTH)`), tagged with the
`joined_id` of the record being processed when the call was made. -/
structure PayCall where
  cardCode : String
  toId : String
  amount : Rat
  forJoined : String
deriving Repr, DecidableEq

/-- The body of the `for (const row of pending)` loop in `periodicCheck`:
unreachable guild or absent member forfeits the record; otherwise the
payment collaborator is called, a thrown payment error leaves the ledger
unchanged, and a returned result leads to `markPaid`. Threads the ledger and
the trace of payment calls. -/
def processRow (cfg : Config) (env : Env) (st : Ledger × List PayCall)
    (row : JoinRecord) (now : Nat) : Ledger × List PayCall :=
  if env.guildAccessible row.guild_id = false then
    (removeInviteRecord st.1 row.joined_id, st.2)
  else if env.memberPresent row.guild_id row.joined_id = false then
    (removeInviteRecord st.1 row.joined_id, st.2)
  else
    match payViaCard (env.payResponse row.joined_id) with
    | .error _ =>
        (st.1,
         st.2 ++ [{ cardCode := cfg.receiverCard, toId := row.inviter_id,
                    amount := cfg.worth, forJoined := row.joined_id }])
    | .ok payRes =>
        (markPaid st.1 row.joined_id (extractTxId payRes) now,
         st.2 ++ [{ cardCode := cfg.receiverCard, toId := row.inviter_id,
                    amount := cfg.worth, forJoined := row.joined_id }])

/-- `periodicCheck`: loads up to 2000 unpaid rows from the current ledger
and processes them sequentially; returns the final ledger and the trace of
payment calls made during the pass. -/
def periodicCheck (cfg : Config) (env : Env) (db : Ledger) (now : Nat) :
    Ledger × List PayCall :=
  (getUnpaidInvites db 2000).foldl
    (fun st row => processRow cfg env st row now) (db, [])

/-- A live invite as returned by `guild.invites.fetch()`: its code, its use
count (`inv.uses || 0`) and its owner
(`inv.inviter ? String(inv.inviter.id) : null`). -/
structure Invite where
  code : String
  uses : Nat
  inviter : Option String
deriving Repr, DecidableEq

/-- A JS `Map<inviteCode, uses>` as an insertion-ordered association list. -/
abbrev InviteMap := List (String × Nat)

/-- `Map.prototype.get`. -/
def mapGet (m : InviteMap) (code : String) : Option Nat :=
  (m.find? (fun p => p.1 == code)).map (fun p => p.2)

/-- `Map.prototype.set`: overwrites an existing key in place, appends a new
key at the end. -/
def mapSet (m : InviteMap) (code : String) (uses : Nat) : InviteMap :=
  if m.any (fun p => p.1 == code) then
    m.map (fun p => if p.1 == code then (p.1, uses) else p)
  else m ++ [(code, uses)]

/-- `for (const inv of fetchedArr) newMap.set(inv.code, inv.uses || 0)`. -/
def buildMap (fetchedArr : List Invite) : InviteMap :=
  fetchedArr.foldl (fun m inv => mapSet m inv.code inv.uses) []

/-- The scan in the `guildMemberAdd` handler: the first entry of `newMap`
(iterated in insertion order) whose use count strictly exceeds
`oldMap.get(code) || 0`, paired with the owner of the matching fetched
invite (`inv && inv.inviter ? String(inv.inviter.id) : null`). -/
def findUsedInvite (fetchedArr : List Invite) (oldMap : InviteMap) :
    Option (String × Option String) :=
  ((buildMap fetchedArr).find? (fun p => (mapGet oldMap p.1).getD 0 < p.2)).map
    (fun p =>
      (p.1, (fetchedArr.find? (fun i => i.code == p.1)).bind
              (fun i => i.inviter)))

/-- Result of the `guildMemberAdd` handler: the cache entry that replaces
the guild's snapshot, the resulting ledger, and the attribution outcome. -/
structure JoinOutcome where
  newCache : InviteMap
  db : Ledger
  used : Option (String × Option String)
deriving Repr, DecidableEq

/-- The `guildMemberAdd` handler: fetch the live invite list, diff it against
the cached snapshot (`invitesCache.get(guildId) || new Map()`), replace the
cache with the fresh map, and, when an invite shows an increase, insert the
pending row with inviter `used.inviterId || '(unknown)'`; otherwise no row is
created. -/
def guildMemberAdd (db : Ledger) (cache : Option InviteMap)
    (fetchedArr : List Invite) (guildId joinedId : String) (now : Nat) :
    JoinOutcome :=
  let oldMap := cache.getD []
  let newMap := buildMap fetchedArr
  match findUsedInvite fetchedArr oldMap with
  | none => { newCache := newMap, db := db, used := none }
  | some (code, inviterId) =>
      { newCache := newMap,
        db := addPendingInviteRecord db guildId (some code)
                (orUnknown inviterId) joinedId now,
        used := some (code, inviterId) }

/-- The per-guild invites cache `Map<guildId, Map<inviteCode, uses>>`. -/
abbrev InvitesCache := String → Option InviteMap

/-- `invitesCache.set(guildId, m)`. -/
def cacheSet (c : InvitesCache) (guildId : String) (m : InviteMap) :
    InvitesCache :=
  fun g => if g = guildId then some m else c g

/-- `refreshGuildInvites`: on a successful fetch, build the code→uses map and
store it for the guild; on a fetch failure, store an empty map for the guild
and return an empty map. -/
def refreshGuildInvites (c : InvitesCache) (guildId : String)
    (fetched : Option (List Invite)) : InvitesCache × InviteMap :=
  match fetched with
  | some invs => (cacheSet c guildId (buildMap invs), buildMap invs)
  | none => (cacheSet c guildId [], [])

/-- `Math.trunc` (truncation toward zero) on rationals. -/
def jsTrunc (q : Rat) : Int :=
  if q < 0 then ⌈q⌉ else ⌊q⌋

/-- `truncateDecimals(num, digits)`:
`Math.trunc(num * 10^digits) / 10^digits`. -/
def truncateDecimals (num : Rat) (digits : Nat) : Rat :=
  ((jsTrunc (num * 10 ^ digits) : Rat)) / 10 ^ digits

/-- The rows of `invite_rewards` matching
`guild_id = ? AND inviter_id = ?`. -/
def inviterRows (db : Ledger) (guildId inviterId : String) : Ledger :=
  db.filter (fun r => r.guild_id == guildId && r.inviter_id == inviterId)

/-- `getInviterStats`: `SELECT invite_code, COUNT(*) as joined_count,
SUM(paid) as paid_count ... GROUP BY invite_code` — one entry per distinct
invite code among the inviter's rows, with the joined count and the count of
paid rows. -/
def getInviterStats (db : Ledger) (guildId inviterId : String) :
    List (Option String × Nat × Nat) :=
  (((inviterRows db guildId inviterId).map (fun r => r.invite_code)).dedup).map
    (fun c =>
      (c, ((inviterRows db guildId inviterId).filter
             (fun r => r.invite_code == c)).length,
          (((inviterRows db guildId inviterId).filter
             (fun r => r.invite_code == c)).filter (fun r => r.paid)).length))

/-- The total reported by `handleInvitesCommand`:
`truncateDecimals(totalPaidCount * Number(WORTH), 8)` where `totalPaidCount`
sums `paid_count` over the stats rows. -/
def handleInvitesTotal (cfg : Config) (db : Ledger)
    (guildId inviterId : String) : Rat :=
  let totalPaidCount : Nat :=
    ((getInviterStats db guildId inviterId).map (fun s => s.2.2)).sum
  truncateDecimals ((totalPaidCount : Rat) * cfg.worth) 8

/-! ### Helper lemmas about the reconciliation pass -/

theorem processRow_calls (cfg : Config) (env : Env) (st : Ledger × List PayCall)
    (row : JoinRecord) (now : Nat) :
    ∀ c ∈ (processRow cfg env st row now).2,
      c ∈ st.2 ∨ c.forJoined = row.joined_id := by
  intro c hc
  unfold processRow at hc
  split at hc
  · exact Or.inl hc
  · split at hc
    · exact Or.inl hc
    · split at hc <;>
      · simp only [List.mem_append, List.mem_singleton] at hc
        rcases hc with h | h
        · exact Or.inl h
        · subst h; exact Or.inr rfl

theorem foldl_processRow_calls (cfg : Config) (env : Env) (now : Nat) :
    ∀ (rows : List JoinRecord) (st : Ledger × List PayCall),
      ∀ c ∈ (rows.foldl (fun st row => processRow cfg env st row now) st).2,
        c ∈ st.2 ∨ ∃ row ∈ rows, c.forJoined = row.joined_id := by
  intro rows
  induction rows with
  | nil => intro st c hc; exact Or.inl hc
  | cons row rows ih =>
      intro st c hc
      simp only [List.foldl_cons] at hc
      rcases ih (processRow cfg env st row now) c hc with h | ⟨row', hr, he⟩
      · rcases processRow_calls cfg env st row now c h with h' | h'
        · exact Or.inl h'
        · exact Or.inr ⟨row, List.mem_cons_self _ _, h'⟩
      · exact Or.inr ⟨row', List.mem_cons_of_mem _ hr, he⟩

theorem periodicCheck_calls (cfg : Config) (env : Env) (db : Ledger) (now : Nat) :
    ∀ c ∈ (periodicCheck cfg env db now).2,
      ∃ row ∈ getUnpaidInvites db 2000, c.forJoined = row.joined_id := by
  intro c hc
  rcases foldl_processRow_calls cfg env now (getUnpaidInvites db 2000)
      (db, []) c hc with h | h
  · simp at h
  · exact h

theorem markPaid_pending_ne (db : Ledger) (j : String) (tx : Option String)
    (now : Nat) (r : JoinRecord) (hr : r ∈ markPaid db j tx now)
    (hp : r.paid = false) : r.joined_id ≠ j := by
  unfold markPaid at hr
  rcases List.mem_map.mp hr with ⟨r0, _, he⟩
  revert he
  split
  · intro he; rw [← he] at hp; simp at hp
  · intro he
    rename_i h0
    rw [← he]
    simpa using h0

/-- C2: once `markPaid` has succeeded for a `joined_id`, a later
reconciliation pass never invokes the payment collaborator for that record —
every payment call of the pass is for a different `joined_id`, because the
pass only processes rows selected with `paid = 0`. -/
theorem no_payment_after_markPaid (cfg : Config) (env : Env) (db : Ledger)
    (j : String) (tx : Option String) (now now' : Nat) :
    ((periodicCheck cfg env (markPaid db j tx now) now').2.all
      (fun c => c.forJoined != j)) = true := by
  rw [List.all_eq_true]
  intro c hc
  obtain ⟨row, hrow, hfj⟩ :=
    periodicCheck_calls cfg env (markPaid db j tx now) now' c hc
  unfold getUnpaidInvites at hrow
  have hrow' := List.mem_of_mem_take hrow
  rw [List.mem_filter] at hrow'
  obtain ⟨hmem, hpaid⟩ := hrow'
  have hpf : row.paid = false := by simpa using hpaid
  have hne := markPaid_pending_ne db j tx now row hmem hpf
  rw [hfj]
  simpa [bne_iff_ne] using hne

/-! ### Idempotent insertion -/

theorem addPending_any (db : Ledger) (g : String) (c : Option String)
    (i j : String) (n : Nat) :
    (addPendingInviteRecord db g c i j n).any (fun r => r.joined_id == j)
      = true := by
  unfold addPendingInviteRecord
  split
  · assumption
  · rw [List.any_append]
    simp

theorem addPending_noop (db : Ledger) (g : String) (c : Option String)
    (i j : String) (n : Nat)
    (h : db.any (fun r => r.joined_id == j) = true) :
    addPendingInviteRecord db g c i j n = db := by
  unfold addPendingInviteRecord
  rw [if_pos h]

/-- C4: inserting a pending JoinRecord twice for the same joined_id leaves
exactly one stored row for that joined_id (given the UNIQUE invariant that
the ledger held at most one such row to begin with), and the second insert
is a no-op, not an error. -/
theorem insert_pending_idempotent (db : Ledger) (g g' : String)
    (c c' : Option String) (i i' j : String) (n n' : Nat)
    (huniq : (db.filter (fun r => r.joined_id == j)).length ≤ 1) :
    addPendingInviteRecord (addPendingInviteRecord db g c i j n) g' c' i' j n'
      = addPendingInviteRecord db g c i j n ∧
    ((addPendingInviteRecord db g c i j n).filter
        (fun r => r.joined_id == j)).length = 1 := by
  constructor
  · exact addPending_noop _ g' c' i' j n' (addPending_any db g c i j n)
  · unfold addPendingInviteRecord
    by_cases h : db.any (fun r => r.joined_id == j) = true
    · rw [if_pos h]
      obtain ⟨x, hx, hpx⟩ : ∃ x ∈ db, (x.joined_id == j) = true := by
        simpa using h
      have h1 : 0 < (db.filter (fun r => r.joined_id == j)).length :=
        List.length_pos_of_mem (List.mem_filter.mpr ⟨hx, hpx⟩)
      omega
    · rw [if_neg h]
      have h0 : db.filter (fun r => r.joined_id == j) = [] := by
        rw [List.filter_eq_nil_iff]
        intro a ha hcontra
        exact h (List.any_eq_true.mpr ⟨a, ha, hcontra⟩)
      rw [List.filter_append, h0]
      simp

/-- Witness for insert_pending_idempotent: double insertion into the empty
ledger. -/
theorem insert_pending_idempotent_witness :
    (([] : Ledger).filter (fun r => r.joined_id == "u1")).length ≤ 1 ∧
    (addPendingInviteRecord
        (addPendingInviteRecord [] "g" (some "A") "i" "u1" 1)
        "g" (some "A") "i" "u1" 2
      = addPendingInviteRecord [] "g" (some "A") "i" "u1" 1 ∧
     ((addPendingInviteRecord [] "g" (some "A") "i" "u1" 1).filter
        (fun r => r.joined_id == "u1")).length = 1) :=
  ⟨by decide,
   insert_pending_idempotent [] "g" "g" (some "A") (some "A") "i" "i" "u1" 1 2
     (by decide)⟩

/-! ### JS string helpers -/

theorem jsOrStr_none_or_truthy (a b : Option String) :
    jsOrStr a b = none ∨ truthyStr (jsOrStr a b) = true := by
  unfold jsOrStr
  by_cases ha : truthyStr a = true
  · rw [if_pos ha]; exact Or.inr ha
  · rw [if_neg ha]
    by_cases hb : truthyStr b = true
    · rw [if_pos hb]; exact Or.inr hb
    · rw [if_neg hb]; exact Or.inl rfl

theorem ite_truthy_jsOrStr (a b : Option String) :
    (if truthyStr (jsOrStr a b) then jsOrStr a b else none) = jsOrStr a b := by
  rcases jsOrStr_none_or_truthy a b with h | h
  · rw [h]; simp [truthyStr]
  · rw [if_pos h]

theorem strOrNull_jsOrStr (a b : Option String) :
    strOrNull (jsOrStr a b) = jsOrStr a b :=
  ite_truthy_jsOrStr a b

/-! ### The payment path of the reconciliation loop -/

theorem payViaCard_ok_extract (d : Option PayData) :
    ∃ p, payViaCard (.ok d) = .ok p ∧ extractTxId p = payOkTx d := by
  rcases d with _ | pd
  · exact ⟨_, rfl, rfl⟩
  · simp only [payViaCard]
    by_cases hs : (pd.success == some true) = true
    · rw [if_pos hs]
      refine ⟨_, rfl, ?_⟩
      unfold extractTxId payOkTx
      exact ite_truthy_jsOrStr pd.txId pd.tx_id
    · rw [if_neg hs]
      refine ⟨_, rfl, ?_⟩
      unfold extractTxId payOkTx
      simp only [truthyStr, Bool.false_eq_true, if_false]
      exact ite_truthy_jsOrStr pd.txId pd.tx_id

theorem processRow_pay (cfg : Config) (env : Env) (db : Ledger)
    (calls : List PayCall) (row : JoinRecord) (now : Nat)
    (hg : env.guildAccessible row.guild_id = true)
    (hm : env.memberPresent row.guild_id row.joined_id = true) :
    processRow cfg env (db, calls) row now =
      ((match payViaCard (env.payResponse row.joined_id) with
        | .error _ => db
        | .ok p => markPaid db row.joined_id (extractTxId p) now),
       calls ++ [{ cardCode := cfg.receiverCard, toId := row.inviter_id,
                   amount := cfg.worth, forJoined := row.joined_id }]) := by
  unfold processRow
  rw [hg, hm]
  simp only [Bool.true_eq_false, if_false]
  cases hpv : payViaCard (env.payResponse row.joined_id) <;> simp [hpv]

/-- C5: when the guild is unreachable or the joined member is absent at
reconciliation time, the record is deleted (forfeited) and the payment
collaborator is never called for it; and a later rejoin inserts a fresh
pending record rather than reviving the deleted one. -/
theorem absent_member_forfeits (cfg : Config) (env : Env) (db : Ledger)
    (calls : List PayCall) (row : JoinRecord) (now : Nat)
    (g : String) (c : Option String) (i : String) (now2 : Nat)
    (h : env.guildAccessible row.guild_id = false ∨
         env.memberPresent row.guild_id row.joined_id = false) :
    processRow cfg env (db, calls) row now
      = (removeInviteRecord db row.joined_id, calls) ∧
    addPendingInviteRecord (removeInviteRecord db row.joined_id) g c i
        row.joined_id now2
      = removeInviteRecord db row.joined_id ++
        [{ guild_id := g, invite_code := strOrNull c, inviter_id := i,
           joined_id := row.joined_id, joined_at := now2,
           paid := false, paid_at := none, payment_tx := none }] := by
  constructor
  · unfold processRow
    by_cases hg : env.guildAccessible row.guild_id = false
    · rw [if_pos hg]
    · rw [if_neg hg]
      rcases h with h | h
      · exact absurd h hg
      · rw [if_pos h]
  · unfold addPendingInviteRecord
    have hnone : (removeInviteRecord db row.joined_id).any
        (fun r => r.joined_id == row.joined_id) = false := by
      rw [Bool.eq_false_iff]
      intro hany
      obtain ⟨x, hx, hpx⟩ := List.any_eq_true.mp hany
      unfold removeInviteRecord at hx
      have := (List.mem_filter.mp hx).2
      rw [bne_iff_ne] at this
      exact this (by simpa using hpx)
    rw [if_neg (by simp [hnone])]

/-- Concrete configuration used by the witnesses and counterexamples. -/
def cfg0 : Config :=
  { receiverCard := "card", worth := 1/100000, checkIntervalMs := 600000 }

/-- A concrete pending record used by the witnesses and counterexamples. -/
def r0 : JoinRecord :=
  { guild_id := "g1", invite_code := some "B", inviter_id := "inv1",
    joined_id := "u1", joined_at := 3, paid := false, paid_at := none,
    payment_tx := none }

/-- Collaborators for a pass in which the member has left the guild. -/
def envMemberGone : Env :=
  { guildAccessible := fun _ => true, memberPresent := fun _ _ => false,
    payResponse := fun _ => .ok none }

/-- Witness for absent_member_forfeits: forfeiting `r0` when its member has
left, followed by a fresh insert after a rejoin. -/
theorem absent_member_forfeits_witness :
    processRow cfg0 envMemberGone ([r0], []) r0 7
      = (removeInviteRecord [r0] "u1", []) ∧
    addPendingInviteRecord (removeInviteRecord [r0] "u1") "g1" (some "B")
        "inv2" "u1" 9
      = removeInviteRecord [r0] "u1" ++
        [{ guild_id := "g1", invite_code := strOrNull (some "B"),
           inviter_id := "inv2", joined_id := "u1", joined_at := 9,
           paid := false, paid_at := none, payment_tx := none }] :=
  absent_member_forfeits cfg0 envMemberGone [r0] [] r0 7 "g1" (some "B")
    "inv2" 9 (Or.inr rfl)

/-! ### Lifecycle invariant of JoinRecords -/

/-- The RewardLedger lifecycle invariant: a pending row has `paid_at` and
`payment_tx` unset. -/
def pendingNullInv (db : Ledger) : Prop :=
  ∀ r ∈ db, r.paid = false → r.paid_at = none ∧ r.payment_tx = none

theorem key_unique (db : Ledger)
    (huniq : (db.map (fun r => r.joined_id)).Nodup)
    (r r' : JoinRecord) (hr : r ∈ db) (hr' : r' ∈ db)
    (he : r.joined_id = r'.joined_id) : r = r' :=
  List.inj_on_of_nodup_map huniq hr hr' he

/-- C7: under the three ledger operations, a pending record has `paid_at` and
`payment_tx` unset, and (given the UNIQUE constraint on `joined_id`) once a
record for a `joined_id` is paid, no operation ever yields a pending record
for that `joined_id` again — the transition is strictly one-directional. -/
theorem join_record_lifecycle (db : Ledger) (g : String) (c : Option String)
    (i j : String) (n now : Nat) (tx : Option String)
    (huniq : (db.map (fun r => r.joined_id)).Nodup) :
    (pendingNullInv db →
      pendingNullInv (addPendingInviteRecord db g c i j n) ∧
      pendingNullInv (markPaid db j tx now) ∧
      pendingNullInv (removeInviteRecord db j)) ∧
    ((∃ r ∈ db, r.joined_id = j ∧ r.paid = true) →
      (∀ r' ∈ addPendingInviteRecord db g c i j n,
         r'.joined_id = j → r'.paid = true) ∧
      (∀ r' ∈ markPaid db j tx now, r'.joined_id = j → r'.paid = true) ∧
      (∀ r' ∈ removeInviteRecord db j, r'.joined_id = j → r'.paid = true)) := by
  constructor
  · intro hinv
    refine ⟨?_, ?_, ?_⟩
    · intro r' hr' hp
      unfold addPendingInviteRecord at hr'
      split at hr'
      · exact hinv r' hr' hp
      · rcases List.mem_append.mp hr' with h | h
        · exact hinv r' h hp
        · simp only [List.mem_singleton] at h
          subst h
          exact ⟨rfl, rfl⟩
    · intro r' hr' hp
      unfold markPaid at hr'
      rcases List.mem_map.mp hr' with ⟨r0, hr0, he⟩
      revert he
      split
      · intro he; rw [← he] at hp; simp at hp
      · intro he; rw [← he]; rw [← he] at hp; exact hinv r0 hr0 hp
    · intro r' hr' hp
      unfold removeInviteRecord at hr'
      exact hinv r' (List.mem_of_mem_filter hr') hp
  · rintro ⟨r, hr, hrj, hrp⟩
    refine ⟨?_, ?_, ?_⟩
    · have hany : db.any (fun x => x.joined_id == j) = true :=
        List.any_eq_true.mpr ⟨r, hr, by simp [hrj]⟩
      rw [addPending_noop db g c i j n hany]
      intro r' hr' he
      have heq : r = r' := key_unique db huniq r r' hr hr' (by rw [hrj, he])
      rw [← heq]; exact hrp
    · intro r' hr' he
      unfold markPaid at hr'
      rcases List.mem_map.mp hr' with ⟨r0, hr0, heq⟩
      revert heq
      split
      · intro heq; rw [← heq]
      · intro heq
        rename_i h0
        exfalso
        apply h0
        rw [heq]
        simp [he]
    · intro r' hr' he
      exfalso
      unfold removeInviteRecord at hr'
      have := (List.mem_filter.mp hr').2
      rw [bne_iff_ne] at this
      exact this he

/-- A concrete one-row ledger whose record is already paid. -/
def dbPaid1 : Ledger :=
  [{ guild_id := "g1", invite_code := some "B", inviter_id := "inv1",
     joined_id := "u1", joined_at := 0, paid := true, paid_at := some 1,
     payment_tx := none }]

/-- Witness for join_record_lifecycle on the concrete ledger dbPaid1, with
both antecedents discharged. -/
theorem join_record_lifecycle_witness :
    (pendingNullInv (addPendingInviteRecord dbPaid1 "g1" (some "B") "inv1" "u1" 5) ∧
     pendingNullInv (markPaid dbPaid1 "u1" (some "t") 5) ∧
     pendingNullInv (removeInviteRecord dbPaid1 "u1")) ∧
    ((∀ r' ∈ addPendingInviteRecord dbPaid1 "g1" (some "B") "inv1" "u1" 5,
        r'.joined_id = "u1" → r'.paid = true) ∧
     (∀ r' ∈ markPaid dbPaid1 "u1" (some "t") 5,
        r'.joined_id = "u1" → r'.paid = true) ∧
     (∀ r' ∈ removeInviteRecord dbPaid1 "u1",
        r'.joined_id = "u1" → r'.paid = true)) :=
  ⟨(join_record_lifecycle dbPaid1 "g1" (some "B") "inv1" "u1" 5 5 (some "t")
      (by decide)).1 (by unfold pendingNullInv; decide),
   (join_record_lifecycle dbPaid1 "g1" (some "B") "inv1" "u1" 5 5 (some "t")
      (by decide)).2 (by decide)⟩

/-! ### Payment failure handling (C3, C6) -/

/-- Collaborators answering the payment POST with HTTP 200 and body
`{success: false}`. -/
def envFalseFlag : Env :=
  { guildAccessible := fun _ => true, memberPresent := fun _ _ => true,
    payResponse := fun _ =>
      .ok (some { success := some false, txId := none, tx_id := none }) }

/-- C3 counterexample: with the guild reachable and the member present, an
HTTP-success response whose success flag is `false` is NOT treated as a
payment failure — the pass calls the collaborator and still marks the
record paid, so the record does not stay pending. -/
theorem nonsuccess_response_marked_paid_cex :
    (periodicCheck cfg0 envFalseFlag [r0] 7).1
      = [{ r0 with paid := true, paid_at := some 7, payment_tx := none }] ∧
    (periodicCheck cfg0 envFalseFlag [r0] 7).2
      = [{ cardCode := "card", toId := "inv1", amount := 1/100000,
           forJoined := "u1" }] :=
  ⟨by decide, rfl⟩

/-- C3 (amended): during reconciliation, a thrown payment call (network
failure or HTTP error status) is treated as a payment failure — the record
is not marked paid and the ledger is left unchanged, so the record stays
pending for the next cycle — whereas any HTTP-success response, whatever its
body, is treated as a successful payment and the record is marked paid. -/
theorem payment_failure_iff_thrown (cfg : Config) (env : Env) (db : Ledger)
    (calls : List PayCall) (row : JoinRecord) (now : Nat) (msg : String)
    (d : Option PayData)
    (hg : env.guildAccessible row.guild_id = true)
    (hm : env.memberPresent row.guild_id row.joined_id = true) :
    (env.payResponse row.joined_id = .thrown msg →
      processRow cfg env (db, calls) row now =
        (db, calls ++ [{ cardCode := cfg.receiverCard,
                         toId := row.inviter_id, amount := cfg.worth,
                         forJoined := row.joined_id }])) ∧
    (env.payResponse row.joined_id = .ok d →
      processRow cfg env (db, calls) row now =
        (markPaid db row.joined_id (payOkTx d) now,
         calls ++ [{ cardCode := cfg.receiverCard,
                     toId := row.inviter_id, amount := cfg.worth,
                     forJoined := row.joined_id }])) := by
  constructor
  · intro hresp
    rw [processRow_pay cfg env db calls row now hg hm, hresp]
    rfl
  · intro hresp
    rw [processRow_pay cfg env db calls row now hg hm, hresp]
    obtain ⟨p, hp, hext⟩ := payViaCard_ok_extract d
    rw [hp]
    simp only [hext]

/-- Collaborators whose payment POST throws (network failure / HTTP error). -/
def envThrow : Env :=
  { guildAccessible := fun _ => true, memberPresent := fun _ _ => true,
    payResponse := fun _ => .thrown "timeout of 15000ms exceeded" }

/-- Witness for payment_failure_iff_thrown: the thrown case on `r0`. -/
theorem payment_failure_iff_thrown_witness :
    (envThrow.payResponse "u1" = .thrown "timeout of 15000ms exceeded" →
      processRow cfg0 envThrow ([r0], []) r0 7 =
        ([r0], [] ++ [{ cardCode := "card", toId := "inv1",
                        amount := 1/100000, forJoined := "u1" }])) ∧
    (envThrow.payResponse "u1" = .ok none →
      processRow cfg0 envThrow ([r0], []) r0 7 =
        (markPaid [r0] "u1" (payOkTx none) 7,
         [] ++ [{ cardCode := "card", toId := "inv1",
                  amount := 1/100000, forJoined := "u1" }])) :=
  payment_failure_iff_thrown cfg0 envThrow [r0] [] r0 7
    "timeout of 15000ms exceeded" none rfl rfl

/-- Collaborators answering the payment POST with HTTP 200 and a body that
has no success flag but carries a transaction id. -/
def envAmbTx : Env :=
  { guildAccessible := fun _ => true, memberPresent := fun _ _ => true,
    payResponse := fun _ =>
      .ok (some { success := none, txId := some "t1", tx_id := none }) }

/-- C6 counterexample: an HTTP-success response whose body lacks the success
flag but carries `txId "t1"` leads to the record being marked paid with
`payment_tx = "t1"`, not with a null `payment_tx`. -/
theorem ambiguous_response_tx_cex :
    (periodicCheck cfg0 envAmbTx [r0] 7).1
      = [{ r0 with paid := true, paid_at := some 7,
                   payment_tx := some "t1" }] ∧
    (periodicCheck cfg0 envAmbTx [r0] 7).1.map (fun r => r.payment_tx)
      ≠ [none] :=
  ⟨by decide, by decide⟩

/-- C6 (amended): an HTTP-success response whose body lacks the success flag
is treated as a successful payment: the record is marked paid rather than
left pending, and its `payment_tx` is the body's `txId` or `tx_id` when one
is truthy, null otherwise. -/
theorem ambiguous_response_marked_paid (cfg : Config) (env : Env)
    (db : Ledger) (calls : List PayCall) (row : JoinRecord) (now : Nat)
    (pd : PayData)
    (hg : env.guildAccessible row.guild_id = true)
    (hm : env.memberPresent row.guild_id row.joined_id = true)
    (hresp : env.payResponse row.joined_id = .ok (some pd))
    (_hflag : pd.success = none) :
    processRow cfg env (db, calls) row now =
      (markPaid db row.joined_id (jsOrStr pd.txId pd.tx_id) now,
       calls ++ [{ cardCode := cfg.receiverCard, toId := row.inviter_id,
                   amount := cfg.worth, forJoined := row.joined_id }]) ∧
    (∀ r' ∈ markPaid db row.joined_id (jsOrStr pd.txId pd.tx_id) now,
       r'.joined_id = row.joined_id →
         r'.paid = true ∧ r'.payment_tx = jsOrStr pd.txId pd.tx_id) := by
  constructor
  · rw [processRow_pay cfg env db calls row now hg hm, hresp]
    obtain ⟨p, hp, hext⟩ := payViaCard_ok_extract (some pd)
    rw [hp]
    simp only [hext, payOkTx]
  · intro r' hr' he
    unfold markPaid at hr'
    rcases List.mem_map.mp hr' with ⟨r1, hr1, heq⟩
    revert heq
    split
    · intro heq
      rw [← heq]
      exact ⟨rfl, strOrNull_jsOrStr pd.txId pd.tx_id⟩
    · intro heq
      rename_i h0
      exfalso
      apply h0
      rw [heq]
      simp [he]

/-- Witness for ambiguous_response_marked_paid: the `r0` scenario with body
`{txId: "t1"}`. -/
theorem ambiguous_response_marked_paid_witness :
    processRow cfg0 envAmbTx ([r0], []) r0 7 =
      (markPaid [r0] "u1"
        (jsOrStr (some "t1") none) 7,
       [] ++ [{ cardCode := "card", toId := "inv1", amount := 1/100000,
                forJoined := "u1" }]) ∧
    (∀ r' ∈ markPaid [r0] "u1" (jsOrStr (some "t1") none) 7,
       r'.joined_id = "u1" →
         r'.paid = true ∧ r'.payment_tx = jsOrStr (some "t1") none) :=
  ambiguous_response_marked_paid cfg0 envAmbTx [r0] [] r0 7
    { success := none, txId := some "t1", tx_id := none } rfl rfl rfl rfl

/-! ### Attribution (C1, C9, C10) -/

theorem mapSet_new (m : InviteMap) (code : String) (uses : Nat)
    (h : m.any (fun p => p.1 == code) = false) :
    mapSet m code uses = m ++ [(code, uses)] := by
  unfold mapSet
  rw [if_neg (by simp [h])]

theorem buildMap_go (l : List Invite) :
    ∀ m : InviteMap,
      (∀ i ∈ l, m.any (fun p => p.1 == i.code) = false) →
      (l.map Invite.code).Nodup →
      l.foldl (fun m inv => mapSet m inv.code inv.uses) m
        = m ++ l.map (fun i => (i.code, i.uses)) := by
  induction l with
  | nil => intro m _ _; simp
  | cons i l ih =>
      intro m hm hnd
      rw [List.map_cons, List.nodup_cons] at hnd
      obtain ⟨hhead, hnd'⟩ := hnd
      simp only [List.foldl_cons]
      rw [mapSet_new m i.code i.uses (hm i (List.mem_cons_self i l))]
      rw [ih (m ++ [(i.code, i.uses)]) ?_ hnd']
      · simp
      · intro i' hi'
        rw [List.any_append]
        rw [hm i' (List.mem_cons_of_mem i hi')]
        simp only [Bool.false_or, List.any_cons, List.any_nil, Bool.or_false]
        rw [beq_eq_false_iff_ne]
        intro he
        exact hhead (he ▸ List.mem_map_of_mem Invite.code hi')

theorem buildMap_eq (l : List Invite) (hnd : (l.map Invite.code).Nodup) :
    buildMap l = l.map (fun i => (i.code, i.uses)) := by
  unfold buildMap
  rw [buildMap_go l [] (fun i _ => rfl) hnd]
  simp

theorem find?_code_of_mem (l : List Invite)
    (hnd : (l.map Invite.code).Nodup) (i : Invite) (hi : i ∈ l) :
    l.find? (fun x => x.code == i.code) = some i := by
  induction l with
  | nil => cases hi
  | cons a l ih =>
      rw [List.map_cons, List.nodup_cons] at hnd
      obtain ⟨hna, hnd'⟩ := hnd
      rcases List.mem_cons.mp hi with h | h
      · subst h
        exact List.find?_cons_of_pos l (by simp)
      · have hne : a.code ≠ i.code := by
          intro he
          exact hna (he ▸ List.mem_map_of_mem Invite.code h)
        rw [List.find?_cons_of_neg l (by simp [hne])]
        exact ih hnd' h

theorem findUsedInvite_eq (l : List Invite) (oldMap : InviteMap)
    (hnd : (l.map Invite.code).Nodup) :
    findUsedInvite l oldMap =
      (l.find? (fun i => (mapGet oldMap i.code).getD 0 < i.uses)).map
        (fun i => (i.code, i.inviter)) := by
  unfold findUsedInvite
  rw [buildMap_eq l hnd]
  rw [List.find?_map]
  cases hfind : l.find?
      ((fun p : String × Nat => ((mapGet oldMap p.1).getD 0 < p.2 : Bool)) ∘
        (fun i : Invite => (i.code, i.uses))) with
  | none =>
      have hf2 : l.find?
          (fun i : Invite => ((mapGet oldMap i.code).getD 0 < i.uses : Bool))
            = none := hfind
      rw [hf2]
      rfl
  | some i =>
      have hf2 : l.find?
          (fun i : Invite => ((mapGet oldMap i.code).getD 0 < i.uses : Bool))
            = some i := hfind
      rw [hf2]
      have hi : i ∈ l := List.mem_of_find?_eq_some hf2
      show some (i.code,
          (l.find? (fun x => x.code == i.code)).bind (fun x => x.inviter))
        = some (i.code, i.inviter)
      rw [find?_code_of_mem l hnd i hi]
      rfl

/-- C1: on a join, attribution scans the freshly fetched invite list in
collaborator order and selects the first invite whose fresh use count
strictly exceeds the cached one (absent codes defaulting to 0), its owner
being the inviter; in particular with cached snapshot {A:5, B:2} and live
state {A:5, B:3} the join is attributed to invite B and its owner. -/
theorem attribution_selects_first_increased (l : List Invite)
    (oldMap : InviteMap) (hnd : (l.map Invite.code).Nodup) :
    findUsedInvite l oldMap =
      (l.find? (fun i => (mapGet oldMap i.code).getD 0 < i.uses)).map
        (fun i => (i.code, i.inviter)) ∧
    findUsedInvite [⟨"A", 5, some "alice"⟩, ⟨"B", 3, some "bob"⟩]
        [("A", 5), ("B", 2)] = some ("B", some "bob") :=
  ⟨findUsedInvite_eq l oldMap hnd, by decide⟩

/-- Witness for attribution_selects_first_increased on the spec's two-invite
scenario. -/
theorem attribution_selects_first_increased_witness :
    (([⟨"A", 5, some "alice"⟩, ⟨"B", 3, some "bob"⟩] : List Invite).map
        Invite.code).Nodup ∧
    (findUsedInvite [⟨"A", 5, some "alice"⟩, ⟨"B", 3, some "bob"⟩]
        [("A", 5), ("B", 2)] =
      (([⟨"A", 5, some "alice"⟩, ⟨"B", 3, some "bob"⟩] : List Invite).find?
        (fun i => (mapGet [("A", 5), ("B", 2)] i.code).getD 0 < i.uses)).map
        (fun i => (i.code, i.inviter)) ∧
    findUsedInvite [⟨"A", 5, some "alice"⟩, ⟨"B", 3, some "bob"⟩]
        [("A", 5), ("B", 2)] = some ("B", some "bob")) :=
  ⟨by decide,
   attribution_selects_first_increased
     [⟨"A", 5, some "alice"⟩, ⟨"B", 3, some "bob"⟩] [("A", 5), ("B", 2)]
     (by decide)⟩

theorem guildMemberAdd_used (db : Ledger) (cache : Option InviteMap)
    (l : List Invite) (g j : String) (now : Nat) :
    (guildMemberAdd db cache l g j now).used
      = findUsedInvite l (cache.getD []) := by
  unfold guildMemberAdd
  cases h : findUsedInvite l (cache.getD []) with
  | none => simp [h]
  | some x => cases x; simp [h]

/-- C9: a failed snapshot refresh replaces the guild's cached snapshot with
an empty mapping (discarding the previous snapshot), so a subsequent join
sees every invite with a positive use count as increased and attributes the
join to the first such invite in fetched order. -/
theorem refresh_failure_attribution (c : InvitesCache) (g : String)
    (db : Ledger) (l : List Invite) (joinedId : String) (now : Nat)
    (hnd : (l.map Invite.code).Nodup) :
    (refreshGuildInvites c g none).1 g = some [] ∧
    (guildMemberAdd db ((refreshGuildInvites c g none).1 g) l g joinedId
        now).used =
      (l.find? (fun i => 0 < i.uses)).map (fun i => (i.code, i.inviter)) := by
  have hc : (refreshGuildInvites c g none).1 g = some [] := by
    unfold refreshGuildInvites cacheSet
    simp
  refine ⟨hc, ?_⟩
  rw [hc, guildMemberAdd_used db (some []) l g joinedId now]
  simp only [Option.getD_some]
  rw [findUsedInvite_eq l [] hnd]
  rfl

/-- Witness for refresh_failure_attribution: one fetched invite with one use
after a failed refresh. -/
theorem refresh_failure_attribution_witness :
    (([⟨"B", 1, some "bob"⟩] : List Invite).map Invite.code).Nodup ∧
    ((refreshGuildInvites (fun _ => none) "g1" none).1 "g1" = some [] ∧
     (guildMemberAdd [] ((refreshGuildInvites (fun _ => none) "g1" none).1
          "g1") [⟨"B", 1, some "bob"⟩] "g1" "u1" 4).used =
       (([⟨"B", 1, some "bob"⟩] : List Invite).find?
          (fun i => 0 < i.uses)).map (fun i => (i.code, i.inviter))) :=
  ⟨by decide,
   refresh_failure_attribution (fun _ => none) "g1" [] [⟨"B", 1, some "bob"⟩]
     "u1" 4 (by decide)⟩

/-- C10: when the consumed invite has no resolvable owner (null inviter),
the join is still recorded with inviter_id stored as the literal string
'(unknown)', and a reconciliation pass that finds the member present calls
the payment collaborator with '(unknown)' as the destination account. -/
theorem unknown_inviter_flow (db : Ledger) (cache : Option InviteMap)
    (l : List Invite) (g j : String) (now : Nat) (code : String)
    (cfg : Config) (env : Env) (db2 : Ledger) (calls : List PayCall)
    (now2 : Nat)
    (hused : findUsedInvite l (cache.getD []) = some (code, none))
    (hnew : db.any (fun r => r.joined_id == j) = false)
    (hg : env.guildAccessible g = true)
    (hm : env.memberPresent g j = true) :
    (guildMemberAdd db cache l g j now).db =
      db ++ [{ guild_id := g, invite_code := strOrNull (some code),
               inviter_id := "(unknown)", joined_id := j, joined_at := now,
               paid := false, paid_at := none, payment_tx := none }] ∧
    (processRow cfg env (db2, calls)
        { guild_id := g, invite_code := strOrNull (some code),
          inviter_id := "(unknown)", joined_id := j, joined_at := now,
          paid := false, paid_at := none, payment_tx := none } now2).2 =
      calls ++ [{ cardCode := cfg.receiverCard, toId := "(unknown)",
                  amount := cfg.worth, forJoined := j }] := by
  constructor
  · simp only [guildMemberAdd, hused]
    unfold addPendingInviteRecord
    rw [if_neg (by simp [hnew])]
    rfl
  · rw [processRow_pay cfg env db2 calls _ now2 hg hm]

/-- Witness for unknown_inviter_flow: an ownerless invite "B" consumed by
member "u1" after which the member is still present at reconciliation. -/
theorem unknown_inviter_flow_witness :
    (guildMemberAdd [] (some []) [⟨"B", 1, none⟩] "g1" "u1" 4).db =
      [] ++ [{ guild_id := "g1", invite_code := strOrNull (some "B"),
               inviter_id := "(unknown)", joined_id := "u1", joined_at := 4,
               paid := false, paid_at := none, payment_tx := none }] ∧
    (processRow cfg0 envThrow ([], [])
        { guild_id := "g1", invite_code := strOrNull (some "B"),
          inviter_id := "(unknown)", joined_id := "u1", joined_at := 4,
          paid := false, paid_at := none, payment_tx := none } 9).2 =
      [] ++ [{ cardCode := "card", toId := "(unknown)",
               amount := 1/100000, forJoined := "u1" }] :=
  unknown_inviter_flow [] (some []) [⟨"B", 1, none⟩] "g1" "u1" 4 "B"
    cfg0 envThrow [] [] 9 (by decide) rfl rfl rfl

/-! ### Stats and reward total (C8) -/

theorem sum_map_add_distrib {β : Type} (K : List β) (f g : β → Nat) :
    (K.map (fun c => f c + g c)).sum = (K.map f).sum + (K.map g).sum := by
  induction K with
  | nil => rfl
  | cons c K ih =>
      simp only [List.map_cons, List.sum_cons, ih]
      omega

theorem sum_map_indicator_not_mem {β : Type} [BEq β] [LawfulBEq β]
    (K : List β) (b : β) (hb : b ∉ K) :
    (K.map (fun c => if b == c then (1 : Nat) else 0)).sum = 0 := by
  induction K with
  | nil => rfl
  | cons c K ih =>
      rw [List.mem_cons, not_or] at hb
      obtain ⟨h1, h2⟩ := hb
      simp [h1, ih h2]

theorem sum_map_indicator_mem {β : Type} [BEq β] [LawfulBEq β] (K : List β)
    (b : β) (hnd : K.Nodup) (hb : b ∈ K) :
    (K.map (fun c => if b == c then (1 : Nat) else 0)).sum = 1 := by
  induction K with
  | nil => cases hb
  | cons c K ih =>
      rw [List.nodup_cons] at hnd
      obtain ⟨hc, hnd'⟩ := hnd
      rcases List.mem_cons.mp hb with h | h
      · subst h
        simp [sum_map_indicator_not_mem K b hc]
      · have h1 : b ≠ c := by
          rintro rfl
          exact hc h
        simp [h1, ih hnd' h]

theorem length_partition {α β : Type} [BEq β] [LawfulBEq β] (k : α → β)
    (l' : List α) :
    ∀ K : List β, K.Nodup → (∀ a ∈ l', k a ∈ K) →
      (K.map (fun c => (l'.filter (fun a => k a == c)).length)).sum
        = l'.length := by
  induction l' with
  | nil =>
      intro K _ _
      simp
  | cons a l ih =>
      intro K hnd hcov
      have hstep : ∀ c : β, ((a :: l).filter (fun x => k x == c)).length
          = (if k a == c then (1 : Nat) else 0)
            + (l.filter (fun x => k x == c)).length := by
        intro c
        by_cases h : k a = c
        · rw [List.filter_cons_of_pos (by simp [h]), if_pos (by simp [h])]
          simp only [List.length_cons]
          omega
        · rw [List.filter_cons_of_neg (by simp [h]), if_neg (by simp [h])]
          simp
      rw [List.map_congr_left (fun c _ => hstep c), sum_map_add_distrib]
      rw [sum_map_indicator_mem K (k a) hnd (hcov a (List.mem_cons_self a l))]
      rw [ih K hnd (fun x hx => hcov x (List.mem_cons_of_mem a hx))]
      simp [Nat.add_comm]

theorem total_paid_eq (db : Ledger) (g i : String) :
    ((getInviterStats db g i).map (fun s => s.2.2)).sum
      = ((inviterRows db g i).filter (fun r => r.paid)).length := by
  unfold getInviterStats
  rw [List.map_map]
  simp only [Function.comp_def]
  have hswap : ∀ c : Option String,
      (((inviterRows db g i).filter (fun r => r.invite_code == c)).filter
          (fun r => r.paid)).length
        = (((inviterRows db g i).filter (fun r => r.paid)).filter
            (fun r => r.invite_code == c)).length := by
    intro c
    rw [List.filter_filter, List.filter_filter]
    have hcomm : ∀ x ∈ inviterRows db g i,
        (x.paid && (x.invite_code == c)) = ((x.invite_code == c) && x.paid) :=
      fun x _ => Bool.and_comm _ _
    rw [List.filter_congr hcomm]
  rw [List.map_congr_left (fun c _ => hswap c)]
  refine length_partition (fun r : JoinRecord => r.invite_code)
    ((inviterRows db g i).filter (fun r => r.paid))
    (((inviterRows db g i).map (fun r => r.invite_code)).dedup)
    (List.nodup_dedup _) ?_
  intro a ha
  exact List.mem_dedup.mpr
    (List.mem_map_of_mem _ (List.mem_of_mem_filter ha))

/-- A ledger holding three paid records and one pending record for inviter
"inv1" in guild "g1", across two invite codes. -/
def db8 : Ledger :=
  [{ guild_id := "g1", invite_code := some "A", inviter_id := "inv1",
     joined_id := "m1", joined_at := 1, paid := true, paid_at := some 2,
     payment_tx := some "t1" },
   { guild_id := "g1", invite_code := some "A", inviter_id := "inv1",
     joined_id := "m2", joined_at := 1, paid := true, paid_at := some 2,
     payment_tx := none },
   { guild_id := "g1", invite_code := some "B", inviter_id := "inv1",
     joined_id := "m3", joined_at := 1, paid := true, paid_at := some 2,
     payment_tx := some "t3" },
   { guild_id := "g1", invite_code := some "B", inviter_id := "inv1",
     joined_id := "m4", joined_at := 5, paid := false, paid_at := none,
     payment_tx := none }]

/-- C8: the total reported by the stats command equals
paid_count × fixed_reward truncated to 8 decimal places, where paid_count is
the inviter's number of paid rows; in particular for W = 0.00001000 and
3 paid rows the reported total is exactly 0.00003000. -/
theorem invites_total_reward (cfg : Config) (db : Ledger) (g i : String) :
    handleInvitesTotal cfg db g i =
      truncateDecimals
        ((((inviterRows db g i).filter (fun r => r.paid)).length : Rat)
          * cfg.worth) 8 ∧
    handleInvitesTotal cfg0 db8 "g1" "inv1" = 3/100000 := by
  constructor
  · unfold handleInvitesTotal
    rw [total_paid_eq db g i]
  · have h3 : ((getInviterStats db8 "g1" "inv1").map (fun s => s.2.2)).sum
        = 3 := by decide
    unfold handleInvitesTotal
    rw [h3]
    norm_num [truncateDecimals, jsTrunc, cfg0]

end InviteReward
